import Mathlib

/-!
Shallow embedding of the i2c-debug-tool firmware core
(src/i2c-debug-tool.ino; an earlier revision of the same sketch appears
as src/unnamed/part_000).

The sketch targets AVR (it includes avr/pgmspace.h and is an Arduino
.ino), so the embedding follows avr-gcc semantics where they matter:
`uint8_t` values are naturals reduced mod 256 at the points where the
source stores into a `uint8_t`, and plain `char` is signed (range
-128..127), which is relevant to `eepromSlotUsed`.

The I2C transport (the Wire library) is abstracted: for the register
access engine it is a record of response functions, and every engine
operation also returns the list of bus events it issued so that
"performs no transport I/O" is a provable statement.  Printing to
Serial is modelled only where it carries data: each ≤16-byte dump line
becomes a `Chunk` value.
-/

namespace I2CDebug

/-- One observable transaction on the I2C bus: `trans a bytes stop` is a
beginTransmission/write*/endTransmission sequence to address `a` with the
written bytes and the sendStop flag; `req a n` is a requestFrom of `n`
bytes from address `a`. -/
inductive BusEv where
  | trans : Nat → List Nat → Bool → BusEv
  | req : Nat → Nat → BusEv
  deriving DecidableEq, Repr

/-- Abstraction of the Wire library's observable behaviour as seen by the
register access engine: `endTrans a bytes stop` is the error code returned
by endTransmission for a transaction writing `bytes` to `a`; `reqFrom a n`
is the byte count returned by requestFrom; `readByte a r` is the data byte
the device at `a` yields for register `r`. -/
structure Wire where
  endTrans : Nat → List Nat → Bool → Nat
  reqFrom : Nat → Nat → Nat
  readByte : Nat → Nat → Nat

/-- A transport on which every transaction succeeds: endTransmission
always returns 0, requestFrom always delivers the requested count, and
every register reads as 0. -/
def perfectWire : Wire where
  endTrans := fun _ _ _ => 0
  reqFrom := fun _ n => n
  readByte := fun _ _ => 0

/-- i2cWriteRegister (i2c-debug-tool.ino lines 112-118): one transaction
writing the register index then the value; succeeds iff the transport
reports error code 0.  Also returns the bus events issued. -/
def i2cWriteRegister (w : Wire) (addr reg value : Nat) : Bool × List BusEv :=
  let err := w.endTrans addr [reg, value] true
  (err == 0, [BusEv.trans addr [reg, value] true])

/-- i2cReadRegister (i2c-debug-tool.ino lines 120-132): pointer-set phase
(write of the register index, repeated start), then a one-byte
requestFrom.  `none` models returning false (the out-parameter not
delivered).  Also returns the bus events issued. -/
def i2cReadRegister (w : Wire) (addr reg : Nat) : Option Nat × List BusEv :=
  let err := w.endTrans addr [reg] false
  if err ≠ 0 then (none, [BusEv.trans addr [reg] false])
  else
    let got := w.reqFrom addr 1
    if got ≠ 1 then (none, [BusEv.trans addr [reg] false, BusEv.req addr 1])
    else (some (w.readByte addr reg), [BusEv.trans addr [reg] false, BusEv.req addr 1])

/-- One printed dump line of i2cReadRange: the chunk's start register and
the bytes read for it. -/
structure Chunk where
  offset : Nat
  bytes : List Nat
  deriving DecidableEq, Repr

/-- The while loop of i2cReadRange (i2c-debug-tool.ino lines 137-175),
with the 8-bit arithmetic of the source made explicit: `reg` and
`remaining` are `uint8_t`, so `remaining = endReg - reg + 1` is reduced
mod 256 (it overflows to 0 when `reg = 0` and `endReg = 255`) and the 16
`reg++` steps of a full chunk wrap mod 256.  The loop is given explicit
fuel because the source loop does not terminate for every input; `none`
means the fuel ran out with the loop still running.  The accumulated
chunks, the success flag and the issued bus events mirror the source's
printed lines and return value. -/
def i2cReadRangeLoop (w : Wire) (addr endReg : Nat) :
    Nat → Nat → List Chunk → List BusEv → Option (List Chunk × Bool) × List BusEv
  | 0, _, _, tr => (none, tr)
  | fuel + 1, reg, acc, tr =>
    if reg ≤ endReg then
      let remaining := (endReg - reg + 1) % 256
      let chunkLen := if remaining > 16 then 16 else remaining
      let tr1 := tr ++ [BusEv.trans addr [reg] false]
      if w.endTrans addr [reg] false ≠ 0 then (some (acc, false), tr1)
      else
        let tr2 := tr1 ++ [BusEv.req addr chunkLen]
        if w.reqFrom addr chunkLen ≠ chunkLen then (some (acc, false), tr2)
        else
          i2cReadRangeLoop w addr endReg fuel ((reg + chunkLen) % 256)
            (acc ++ [⟨reg, (List.range chunkLen).map (fun i => w.readByte addr ((reg + i) % 256))⟩])
            tr2
    else (some (acc, true), tr)

/-- i2cReadRange (i2c-debug-tool.ino lines 134-177): rejects `endReg <
startReg` before any transport I/O, else runs the chunk loop. -/
def i2cReadRange (w : Wire) (addr startReg endReg fuel : Nat) :
    Option (List Chunk × Bool) × List BusEv :=
  if endReg < startReg then (some ([], false), [])
  else i2cReadRangeLoop w addr endReg fuel startReg [] []

/-- On the always-successful transport with `endReg = 255`, the loop
guard `reg <= endReg` is a tautology for a `uint8_t` register pointer, so
the loop never exits: whatever the fuel, it is exhausted. -/
lemma i2cReadRangeLoop_ff_diverges (addr : Nat) :
    ∀ (fuel reg : Nat) (acc : List Chunk) (tr : List BusEv), reg ≤ 255 →
      (i2cReadRangeLoop perfectWire addr 255 fuel reg acc tr).1 = none := by
  intro fuel
  induction fuel with
  | zero => intro reg acc tr _; rfl
  | succ n ih =>
    intro reg acc tr h
    have hlt : (reg + (if (255 - reg + 1) % 256 > 16 then 16 else (255 - reg + 1) % 256)) % 256 ≤ 255 := by
      have := Nat.mod_lt (reg + (if (255 - reg + 1) % 256 > 16 then 16 else (255 - reg + 1) % 256)) (show 0 < 256 by norm_num)
      omega
    simp only [i2cReadRangeLoop, perfectWire, h, if_true, if_pos]
    simp only [ne_eq, not_true_eq_false, if_false, ite_self, not_false_eq_true]
    exact ih _ _ _ hlt

/-- One device record (struct I2C_DeviceInfo, i2c-debug-tool.ino lines
13-19): address, a 32-byte name field (MAX_NAME_LEN = 32), identification
register (255 = no check), expected value and comparison mask.  The name
field is kept as its raw bytes; on AVR the struct is packed, so the
serialized record is 36 bytes. -/
structure I2C_DeviceInfo where
  address : Nat
  name : List Nat
  chip_id_reg : Nat
  expected_chip_id : Nat
  id_mask : Nat
  deriving DecidableEq, Repr

/-- Value of a name byte when read through the struct's `char` field:
avr-gcc `char` is signed, so bytes 128-255 read as negative values after
integer promotion. -/
def charSigned (b : Nat) : Int :=
  if b < 128 then (b : Int) else (b : Int) - 256

/-- eepromSlotUsed (i2c-debug-tool.ino lines 181-183):
`info.address <= 0x7F && info.name[0] != 0xFF && info.name[0] != '\0'`.
The middle comparison promotes the signed char `name[0]` to int and
compares it with the int literal 0xFF = 255. -/
def eepromSlotUsed (info : I2C_DeviceInfo) : Bool :=
  decide (info.address ≤ 0x7F) && (charSigned (info.name.headD 0) != 0xFF)
    && (info.name.headD 0 != 0)

/-- EEPROM_ENTRY_SIZE = sizeof(I2C_DeviceInfo) = 1 + 32 + 1 + 1 + 1 = 36
bytes on the packed AVR target; EEPROM_BASE_ADDR = 0. -/
def EEPROM_ENTRY_SIZE : Nat := 36

/-- Byte layout written by EEPROM.put for one record: address, the 32
name bytes, chip_id_reg, expected_chip_id, id_mask. -/
def serializeDevice (info : I2C_DeviceInfo) : List Nat :=
  info.address :: info.name ++ [info.chip_id_reg, info.expected_chip_id, info.id_mask]

/-- loadEepromDevice (i2c-debug-tool.ino lines 185-188): EEPROM.get of the
record at `EEPROM_BASE_ADDR + slot * EEPROM_ENTRY_SIZE`; the EEPROM is a
byte store `Nat → Nat`. -/
def loadEepromDevice (e : Nat → Nat) (slot : Nat) : I2C_DeviceInfo :=
  let base := slot * EEPROM_ENTRY_SIZE
  { address := e base
    name := (List.range 32).map (fun i => e (base + 1 + i))
    chip_id_reg := e (base + 33)
    expected_chip_id := e (base + 34)
    id_mask := e (base + 35) }

/-- saveEepromDevice (i2c-debug-tool.ino lines 190-193): EEPROM.put of the
serialized record at the slot's base offset; bytes outside the record are
untouched. -/
def saveEepromDevice (e : Nat → Nat) (slot : Nat) (info : I2C_DeviceInfo) : Nat → Nat :=
  fun i =>
    let base := slot * EEPROM_ENTRY_SIZE
    if base ≤ i ∧ i < base + EEPROM_ENTRY_SIZE then (serializeDevice info).getD (i - base) 0
    else e i

/-- The scan loop of findFreeEepromSlot from slot `i` upward
(EEPROM_MAX_DEVICES = 8). -/
def findFreeFromSlot (e : Nat → Nat) (i : Nat) : Option Nat :=
  if _h : i < 8 then
    if eepromSlotUsed (loadEepromDevice e i) then findFreeFromSlot e (i + 1) else some i
  else none
  termination_by 8 - i

/-- findFreeEepromSlot (i2c-debug-tool.ino lines 195-202): linear scan
from slot 0; the source's -1 return is modelled as `none`. -/
def findFreeEepromSlot (e : Nat → Nat) : Option Nat :=
  findFreeFromSlot e 0

/-- Byte codes of a Lean string literal, used to write down C string
constants from the sketch. -/
def strBytes (s : String) : List Nat :=
  s.data.map Char.toNat

/-- Uppercase hex digit, as produced by snprintf with %02X. -/
def hexDigit (n : Nat) : Nat :=
  if n < 10 then 48 + n else 55 + n

/-- Default name built by promptAddDeviceToEeprom when the operator enters
a blank name (i2c-debug-tool.ino lines 256-261): "Custom 0x" followed by
the two uppercase hex digits of the address. -/
def defaultAddName (addr : Nat) : List Nat :=
  strBytes "Custom 0x" ++ [hexDigit (addr / 16 % 16), hexDigit (addr % 16)]

/-- The record built by promptAddDeviceToEeprom (i2c-debug-tool.ino lines
248-278) once the prompts have produced their values: the struct is first
memset to 0xFF, the name (defaulted when blank, then truncated to 31
chars) is copied by String::toCharArray, which writes the text and one
NUL terminator and leaves the remaining bytes of the 32-byte field at
their 0xFF fill; the prompted chip-ID fields overwrite their bytes. -/
def buildAddRecord (addr : Nat) (nameInput : List Nat) (chipReg chipVal maskVal : Nat) :
    I2C_DeviceInfo :=
  let text := (if nameInput.isEmpty then defaultAddName addr else nameInput).take 31
  { address := addr
    name := text ++ [0] ++ List.replicate (31 - text.length) 0xFF
    chip_id_reg := chipReg
    expected_chip_id := chipVal
    id_mask := maskVal }

/-- The storage effect of promptAddDeviceToEeprom after the operator
confirms (i2c-debug-tool.ino lines 242-283): find a free slot; if none,
return with the EEPROM untouched; else persist the built record there.
Returns the new EEPROM contents and the slot used (none = store full). -/
def addDeviceToEeprom (e : Nat → Nat) (addr : Nat) (nameInput : List Nat)
    (chipReg chipVal maskVal : Nat) : (Nat → Nat) × Option Nat :=
  match findFreeEepromSlot e with
  | none => (e, none)
  | some slot =>
    (saveEepromDevice e slot (buildAddRecord addr nameInput chipReg chipVal maskVal), some slot)

/-- Stateful abstraction of i2cReadRegister as the matcher sees it: one
call either fails (`none`, covering both a pointer-set error and a short
read) or yields the register's byte, and may advance the transport state,
so that two successive reads of the same register can observe different
values. -/
structure Transport (σ : Type) where
  readReg : σ → Nat → Nat → Option Nat × σ

/-- The C string taken from a record's name field (String(info.name)
reads up to the first NUL). -/
def cName (info : I2C_DeviceInfo) : List Nat :=
  info.name.takeWhile (fun b => b ≠ 0)

/-- Accumulator of describeI2CAddress (i2c-debug-tool.ino lines 286-289):
the two name lists and the hasDatabaseMatch flag.  The sketch joins names
with ", " into a String; the embedding keeps them as a list. -/
structure MatchState where
  confirmed : List (List Nat)
  possible : List (List Nat)
  hasMatch : Bool
  deriving DecidableEq, Repr

/-- Initial accumulator of describeI2CAddress: both lists empty,
hasDatabaseMatch false. -/
def initialMatchState : MatchState :=
  { confirmed := [], possible := [], hasMatch := false }

/-- considerDeviceMatch (i2c-debug-tool.ino lines 211-229).  Also returns
the (address, register) pairs of the i2cReadRegister calls it issued, so
that "performs no register read" is provable. -/
def considerDeviceMatch {σ : Type} (t : Transport σ) (info : I2C_DeviceInfo) (addr : Nat)
    (st : MatchState) (s : σ) : MatchState × σ × List (Nat × Nat) :=
  if info.address ≠ addr then (st, s, [])
  else
    let st1 := { st with hasMatch := true }
    if info.chip_id_reg = 0xFF then
      ({ st1 with possible := st1.possible ++ [cName info] }, s, [])
    else
      match t.readReg s addr info.chip_id_reg with
      | (some chipId, s1) =>
        if chipId &&& info.id_mask = info.expected_chip_id &&& info.id_mask then
          ({ st1 with confirmed := st1.confirmed ++ [cName info] }, s1, [(addr, info.chip_id_reg)])
        else
          ({ st1 with possible := st1.possible ++ [cName info] }, s1, [(addr, info.chip_id_reg)])
      | (none, s1) =>
        ({ st1 with possible := st1.possible ++ [cName info] }, s1, [(addr, info.chip_id_reg)])

/-- A catalog walk: considerDeviceMatch on each descriptor in order,
threading the accumulator and the transport state and concatenating the
read traces (the loops of describeI2CAddress, lines 291-302). -/
def classifyList {σ : Type} (t : Transport σ) (addr : Nat) :
    List I2C_DeviceInfo → MatchState → σ → MatchState × σ × List (Nat × Nat)
  | [], st, s => (st, s, [])
  | info :: rest, st, s =>
    let r1 := considerDeviceMatch t info addr st s
    let r2 := classifyList t addr rest r1.1 r1.2.1
    (r2.1, r2.2.1, r1.2.2 ++ r2.2.2)

/-- Pad a built-in name to the 32-byte char array (static initialization
zero-fills the remainder). -/
def padName (s : String) : List Nat :=
  strBytes s ++ List.replicate (32 - (strBytes s).length) 0

/-- The built-in descriptor table i2c_devices (i2c-debug-tool.ino lines
21-36). -/
def i2c_devices : List I2C_DeviceInfo :=
  [ ⟨0x68, padName "MPU-6050", 0x75, 0x68, 0xFF⟩,
    ⟨0x68, padName "MPU-9250 / ICM-20948", 0x75, 0x71, 0xFF⟩,
    ⟨0x76, padName "BME280 / BMP280 (def)", 0xD0, 0x60, 0xFF⟩,
    ⟨0x77, padName "BME280 / BMP280 (alt)", 0xD0, 0x60, 0xFF⟩,
    ⟨0x23, padName "BH1750 Light Sensor", 0xFF, 0x00, 0x00⟩,
    ⟨0x29, padName "TSL2561 / APDS-9960", 0xFF, 0x00, 0x00⟩,
    ⟨0x40, padName "HTU21D / Si7021", 0xFF, 0x00, 0x00⟩,
    ⟨0x3C, padName "OLED (SSD1306)", 0xFF, 0x00, 0x00⟩,
    ⟨0x3D, padName "OLED (SSD1306)", 0xFF, 0x00, 0x00⟩ ]

/-- The occupied store slots in slot-index order, as walked by the second
loop of describeI2CAddress (lines 297-302): load each of the 8 slots and
keep those eepromSlotUsed accepts. -/
def occupiedSlots (e : Nat → Nat) : List I2C_DeviceInfo :=
  ((List.range 8).map (loadEepromDevice e)).filter eepromSlotUsed

/-- The classification part of describeI2CAddress (i2c-debug-tool.ino
lines 286-302): walk the built-in table, then the occupied store slots,
starting from the empty accumulator. -/
def describeClassify {σ : Type} (t : Transport σ) (e : Nat → Nat) (addr : Nat) (s : σ) :
    MatchState × σ × List (Nat × Nat) :=
  classifyList t addr (i2c_devices ++ occupiedSlots e) initialMatchState s

/-- Modelled from the spec (section 3): the free-slot condition as the
spec states it — address outside 0-127, or first name byte equal to the
erased sentinel 0xFF, or first name byte NUL.  Kept separate from
`eepromSlotUsed`, which embeds the source. -/
def specSlotFree (info : I2C_DeviceInfo) : Bool :=
  !(decide (info.address ≤ 0x7F)) || (info.name.headD 0 == 0xFF) || (info.name.headD 0 == 0)

/-- C9: for every transport, address and registers with start > end,
i2cReadRange returns the invalid-range failure (the pre-I/O `return
false` of line 135) and issues no bus event at all. -/
theorem c9_invalid_range_rejected_before_io (w : Wire) (addr s e fuel : Nat) (h : e < s) :
    i2cReadRange w addr s e fuel = (some ([], false), []) := by
  simp [i2cReadRange, h]

/-- Witness for C9 at the concrete call readRange(0x68, 0x05, 0x03). -/
theorem c9_invalid_range_rejected_before_io_witness :
    i2cReadRange perfectWire 0x68 0x05 0x03 100 = (some ([], false), []) :=
  c9_invalid_range_rejected_before_io perfectWire 0x68 0x05 0x03 100 (by decide)

/-- C1: at the failing input readRange(0x68, 0x00, 0xFF) — the claim's own
example, and the default dump range — the loop never completes for any
amount of fuel, even on an always-successful transport: `remaining =
endReg - reg + 1` is a uint8_t and overflows to 0 at reg = 0, and the
uint8_t register pointer can never exceed endReg = 0xFF, so no finite
chunk sequence (in particular not the claimed 16 chunks of 16) is ever
produced. -/
theorem c1_full_range_dump_never_completes :
    ∀ fuel : Nat, (i2cReadRange perfectWire 0x68 0x00 0xFF fuel).1 = none := by
  intro fuel
  have h : ¬ (0xFF < 0x00) := by omega
  rw [i2cReadRange, if_neg h]
  exact i2cReadRangeLoop_ff_diverges 0x68 fuel 0 [] [] (by omega)

/-- C2: a dump whose end register is 0xFF never terminates, for every
address and start register, however much fuel the loop is given, even
when every transport call succeeds — refuting "it never loops forever". -/
theorem c2_dump_with_end_ff_never_terminates (addr s fuel : Nat) (h : s ≤ 255) :
    (i2cReadRange perfectWire addr s 0xFF fuel).1 = none := by
  rw [i2cReadRange, if_neg (by omega)]
  exact i2cReadRangeLoop_ff_diverges addr fuel s [] [] h

/-- Witness for C2 at the concrete call readRange(0x23, 0x10, 0xFF) with
fuel 1000. -/
theorem c2_dump_with_end_ff_never_terminates_witness :
    (i2cReadRange perfectWire 0x23 0x10 0xFF 1000).1 = none :=
  c2_dump_with_end_ff_never_terminates 0x23 0x10 1000 (by decide)

/-- C4 counterexample: at address 200 > 127 the core operations perform
bus I/O and report success on a successful transport — they do not reject
the out-of-range address and do not avoid the bus. -/
theorem c4_counterexample_forwards_out_of_range_address :
    (i2cReadRegister perfectWire 200 0).1 = some 0 ∧
    (i2cReadRegister perfectWire 200 0).2 ≠ [] ∧
    (i2cWriteRegister perfectWire 200 0 0).1 = true ∧
    (i2cWriteRegister perfectWire 200 0 0).2 ≠ [] ∧
    (i2cReadRange perfectWire 200 0 0 2).1 = some ([⟨0, [0]⟩], true) ∧
    (i2cReadRange perfectWire 200 0 0 2).2 ≠ [] := by
  refine ⟨rfl, by decide, rfl, by decide, rfl, by decide⟩

/-- The pointer-set transaction of i2cReadRegister is issued on every
transport, so its event list is never empty. -/
lemma i2cReadRegister_io_nonempty (w : Wire) (addr reg : Nat) :
    (i2cReadRegister w addr reg).2 ≠ [] := by
  unfold i2cReadRegister
  by_cases h1 : w.endTrans addr [reg] false ≠ 0
  · simp [h1]
  · by_cases h2 : w.reqFrom addr 1 ≠ 1 <;> simp [h1, h2]

/-- The first chunk's pointer-set transaction of a valid one-register
range read is issued on every transport. -/
lemma i2cReadRange_single_io_nonempty (w : Wire) (addr : Nat) :
    (i2cReadRange w addr 0 0 2).2 ≠ [] := by
  rw [i2cReadRange, if_neg (by omega)]
  unfold i2cReadRangeLoop
  by_cases h1 : w.endTrans addr [0] false = 0
  · by_cases h2 : w.reqFrom addr 1 = 1
    · simp [h1, h2]
      unfold i2cReadRangeLoop
      simp
    · simp [h1, h2]
  · simp [h1]

/-- C4 amended: the core register operations apply no address validation —
for every address above 127 they still issue bus I/O (on any transport)
and report the transport's outcome (success, on a transport that
succeeds); rejection of out-of-range addresses happens only in the
command-layer parsers before these functions are called. -/
theorem c4_amended_core_forwards_address (w : Wire) (addr reg value : Nat) (_h : 127 < addr) :
    (i2cWriteRegister w addr reg value).2 ≠ [] ∧
    (i2cReadRegister w addr reg).2 ≠ [] ∧
    (i2cReadRange w addr 0 0 2).2 ≠ [] ∧
    (i2cWriteRegister perfectWire addr reg value).1 = true ∧
    (i2cReadRegister perfectWire addr reg).1 = some 0 ∧
    (i2cReadRange perfectWire addr 0 0 2).1 = some ([⟨0, [0]⟩], true) := by
  refine ⟨by simp [i2cWriteRegister], i2cReadRegister_io_nonempty w addr reg,
    i2cReadRange_single_io_nonempty w addr, rfl, rfl, rfl⟩

/-- Witness for the amended C4 at address 200 and register 0x75. -/
theorem c4_amended_core_forwards_address_witness :
    (i2cWriteRegister perfectWire 200 0x75 7).2 ≠ [] ∧
    (i2cReadRegister perfectWire 200 0x75).2 ≠ [] ∧
    (i2cReadRange perfectWire 200 0 0 2).2 ≠ [] ∧
    (i2cWriteRegister perfectWire 200 0x75 7).1 = true ∧
    (i2cReadRegister perfectWire 200 0x75).1 = some 0 ∧
    (i2cReadRange perfectWire 200 0 0 2).1 = some ([⟨0, [0]⟩], true) :=
  c4_amended_core_forwards_address perfectWire 200 0x75 7 (by decide)

/-- A slot record whose address is in range and whose name starts with
the byte 0xFF: the spec's free condition holds, yet the source treats the
slot as used. -/
def c3SlotCex : I2C_DeviceInfo :=
  ⟨0x10, 0xFF :: List.replicate 31 0, 0xFF, 0x00, 0x00⟩

/-- C3 counterexample: on a record with address 0x10 and first name byte
0xFF, the spec's free condition holds, but eepromSlotUsed still reports
the slot occupied — the `name[0] != 0xFF` comparison promotes the signed
char name byte to -1, which is never equal to the int literal 255, so the
erased-sentinel disjunct of the claim never fires. -/
theorem c3_counterexample_ff_name_still_used :
    eepromSlotUsed c3SlotCex ≠ (!specSlotFree c3SlotCex) ∧ specSlotFree c3SlotCex = true ∧
    eepromSlotUsed c3SlotCex = true := by
  decide

/-- C3 amended: a slot is free iff its address is outside 0-127 or the
first byte of its name is NUL; the 0xFF comparison contributes nothing
because a signed char is never equal to 255, and eepromSlotUsed returns
the negation of this (smaller) free condition. -/
theorem c3_amended_occupancy (info : I2C_DeviceInfo) (h : info.name.headD 0 < 256) :
    eepromSlotUsed info = (decide (info.address ≤ 0x7F) && (info.name.headD 0 != 0)) := by
  unfold eepromSlotUsed
  have hne : charSigned (info.name.headD 0) ≠ 0xFF := by
    unfold charSigned
    split <;> omega
  have hb : (charSigned (info.name.headD 0) != 0xFF) = true := by
    simpa using hne
  rw [hb, Bool.and_true]

/-- Witness for the amended C3 at the concrete record c3SlotCex. -/
theorem c3_amended_occupancy_witness :
    eepromSlotUsed c3SlotCex =
      (decide (c3SlotCex.address ≤ 0x7F) && (c3SlotCex.name.headD 0 != 0)) :=
  c3_amended_occupancy c3SlotCex (by decide)

/-- The record the guided add flow builds for address 0x50 and the
one-character name "A". -/
def c5Record : I2C_DeviceInfo :=
  buildAddRecord 0x50 [65] 0xFF 0x00 0xFF

/-- C5 counterexample: the record persisted for a one-character name
occupies 36 bytes, its name field is 32 bytes (not 31), and the byte two
positions into the name field — inside what the claim says is NUL
padding — is 0xFF, left over from the memset of the struct. -/
theorem c5_counterexample_name_padding :
    (serializeDevice c5Record).length = 36 ∧ c5Record.name.length = 32 ∧
    c5Record.name.getD 2 0 = 0xFF := by
  decide

/-- C5 amended: every record persisted by the guided add flow has the
byte layout address (1 byte) · name field (32 bytes: the text truncated
to 31 characters, one NUL terminator, and the remaining bytes equal to
the 0xFF fill) · id_register (1 byte) · expected_id (1 byte) · id_mask
(1 byte), 36 bytes in total. -/
theorem c5_amended_record_layout (addr : Nat) (nameInput : List Nat)
    (chipReg chipVal maskVal : Nat) :
    serializeDevice (buildAddRecord addr nameInput chipReg chipVal maskVal) =
      addr :: (((if nameInput.isEmpty then defaultAddName addr else nameInput).take 31
        ++ [0]
        ++ List.replicate
            (31 - ((if nameInput.isEmpty then defaultAddName addr else nameInput).take 31).length)
            0xFF)
        ++ [chipReg, chipVal, maskVal]) ∧
    (serializeDevice (buildAddRecord addr nameInput chipReg chipVal maskVal)).length = 36 := by
  constructor
  · simp [serializeDevice, buildAddRecord]
  · have hle : ((if nameInput.isEmpty then defaultAddName addr else nameInput).take 31).length ≤ 31 := by
      simp [List.length_take]
    simp [serializeDevice, buildAddRecord]
    omega

/-- The loop of findFreeEepromSlot returns slot `t` when `t` is free, all
slots before it (from the scan start) are used, and the scan starts at or
before `t`. -/
lemma findFreeFromSlot_eq_of_first_free (e : Nat → Nat) {t : Nat} (ht : t < 8)
    (hfree : eepromSlotUsed (loadEepromDevice e t) = false) :
    ∀ n s, t - s ≤ n → s ≤ t →
      (∀ j, s ≤ j → j < t → eepromSlotUsed (loadEepromDevice e j) = true) →
      findFreeFromSlot e s = some t := by
  intro n
  induction n with
  | zero =>
    intro s h1 h2 _
    have hst : s = t := by omega
    subst hst
    unfold findFreeFromSlot
    rw [dif_pos ht]
    simp [hfree]
  | succ n ih =>
    intro s h1 h2 h3
    by_cases hst : s = t
    · subst hst
      unfold findFreeFromSlot
      rw [dif_pos ht]
      simp [hfree]
    · have hslt : s < t := by omega
      have hu : eepromSlotUsed (loadEepromDevice e s) = true := h3 s le_rfl hslt
      unfold findFreeFromSlot
      rw [dif_pos (by omega : s < 8)]
      simp only [hu, if_true]
      exact ih (s + 1) (by omega) (by omega) (fun j hj1 hj2 => h3 j (by omega) hj2)

/-- The loop of findFreeEepromSlot returns none when every slot is
used. -/
lemma findFreeFromSlot_none_of_full (e : Nat → Nat)
    (hall : ∀ i, i < 8 → eepromSlotUsed (loadEepromDevice e i) = true) :
    ∀ n s, 8 - s ≤ n → findFreeFromSlot e s = none := by
  intro n
  induction n with
  | zero =>
    intro s h
    unfold findFreeFromSlot
    rw [dif_neg (by omega)]
  | succ n ih =>
    intro s h
    unfold findFreeFromSlot
    by_cases hs : s < 8
    · rw [dif_pos hs]
      simp only [hall s hs, if_true]
      exact ih (s + 1) (by omega)
    · rw [dif_neg hs]

/-- C8: findFreeEepromSlot scans linearly from slot 0 — it returns 0 when
slot 0 is free (so in particular on an all-free store), it returns the
first free slot in general, and when all 8 slots are occupied it returns
none and the add flow returns with the EEPROM contents unchanged and no
slot written. -/
theorem c8_findFreeSlot_first_and_full (e : Nat → Nat) (addr : Nat) (nameInput : List Nat)
    (chipReg chipVal maskVal : Nat) :
    (eepromSlotUsed (loadEepromDevice e 0) = false → findFreeEepromSlot e = some 0) ∧
    (∀ t, t < 8 → (∀ j, j < t → eepromSlotUsed (loadEepromDevice e j) = true) →
      eepromSlotUsed (loadEepromDevice e t) = false → findFreeEepromSlot e = some t) ∧
    ((∀ i, i < 8 → eepromSlotUsed (loadEepromDevice e i) = true) →
      findFreeEepromSlot e = none ∧
      addDeviceToEeprom e addr nameInput chipReg chipVal maskVal = (e, none)) := by
  refine ⟨?_, ?_, ?_⟩
  · intro h0
    exact findFreeFromSlot_eq_of_first_free e (by omega) h0 0 0 (by omega) (by omega)
      (fun j _ hj2 => absurd hj2 (by omega))
  · intro t ht hbefore hfree
    exact findFreeFromSlot_eq_of_first_free e ht hfree t 0 (by omega) (by omega)
      (fun j _ hj2 => hbefore j hj2)
  · intro hall
    have hn : findFreeEepromSlot e = none := findFreeFromSlot_none_of_full e hall 8 0 (by omega)
    refine ⟨hn, ?_⟩
    unfold addDeviceToEeprom
    rw [hn]

/-- An erased EEPROM image: every byte 0xFF, so every slot's address
field is out of range and every slot is free. -/
def erasedStore : Nat → Nat := fun _ => 0xFF

/-- An EEPROM image in which all 8 slots hold a record with address 0x10
and the name "A...": every slot is occupied. -/
def fullStore : Nat → Nat := fun i => if i % 36 = 0 then 0x10 else 65

/-- Witness for C8: on the erased store the first free slot is 0; on the
full store the scan returns none and an add attempt leaves the store
untouched. -/
theorem c8_findFreeSlot_first_and_full_witness :
    findFreeEepromSlot erasedStore = some 0 ∧
    findFreeEepromSlot fullStore = none ∧
    addDeviceToEeprom fullStore 0x50 [65] 0xFF 0x00 0xFF = (fullStore, none) := by
  refine ⟨(c8_findFreeSlot_first_and_full erasedStore 0x50 [65] 0xFF 0x00 0xFF).1 (by decide),
    ?_, ?_⟩
  · exact ((c8_findFreeSlot_first_and_full fullStore 0x50 [65] 0xFF 0x00 0xFF).2.2 (by decide)).1
  · exact ((c8_findFreeSlot_first_and_full fullStore 0x50 [65] 0xFF 0x00 0xFF).2.2 (by decide)).2

/-- C7: for a catalog descriptor whose address matches and whose
id_register is the sentinel 0xFF, considerDeviceMatch appends the name to
possibleNames, leaves confirmedNames untouched, sets the match flag, and
issues no register read at all — for every transport, whose state is
returned unchanged. -/
theorem c7_sentinel_always_possible {σ : Type} (t : Transport σ) (info : I2C_DeviceInfo)
    (addr : Nat) (st : MatchState) (s : σ) (h1 : info.address = addr)
    (h2 : info.chip_id_reg = 0xFF) :
    considerDeviceMatch t info addr st s =
      ({ st with possible := st.possible ++ [cName info], hasMatch := true }, s, []) := by
  unfold considerDeviceMatch
  rw [if_neg (not_not_intro h1), if_pos h2]

/-- The BH1750 entry of the built-in table: sentinel id_register. -/
def bh1750 : I2C_DeviceInfo :=
  ⟨0x23, padName "BH1750 Light Sensor", 0xFF, 0x00, 0x00⟩

/-- A transport whose reads always succeed with the byte 0x60 and count
how often they were called. -/
def okTransport : Transport Nat :=
  ⟨fun s _ _ => (some 0x60, s + 1)⟩

/-- A transport whose reads always fail, counting calls. -/
def failTransport : Transport Nat :=
  ⟨fun s _ _ => (none, s + 1)⟩

/-- Witness for C7: the BH1750 descriptor at its own address goes to
possibleNames with no read issued, on a concrete transport that would
have answered. -/
theorem c7_sentinel_always_possible_witness :
    considerDeviceMatch okTransport bh1750 0x23 initialMatchState 0 =
      ({ initialMatchState with possible := [cName bh1750], hasMatch := true }, 0, []) :=
  c7_sentinel_always_possible okTransport bh1750 0x23 initialMatchState 0 rfl rfl

/-- C6: for a matching descriptor with a non-sentinel id_register,
considerDeviceMatch issues exactly the one identification read and:
appends the name to confirmedNames iff the read succeeded and matched
under the mask (leaving possibleNames alone); on mask mismatch or
transport failure it appends the name to possibleNames and never to
confirmedNames; it threads the transport state of the read; and the
enclosing catalog walk always continues with the remaining descriptors,
so a failed read never aborts the classification command. -/
theorem c6_confirmed_iff_id_match {σ : Type} (t : Transport σ) (info : I2C_DeviceInfo)
    (addr : Nat) (st : MatchState) (s : σ) (h1 : info.address = addr)
    (h2 : info.chip_id_reg ≠ 0xFF) :
    ((t.readReg s addr info.chip_id_reg).1 = none →
      (considerDeviceMatch t info addr st s).1.confirmed = st.confirmed ∧
      (considerDeviceMatch t info addr st s).1.possible = st.possible ++ [cName info]) ∧
    (∀ v, (t.readReg s addr info.chip_id_reg).1 = some v →
      if v &&& info.id_mask = info.expected_chip_id &&& info.id_mask then
        (considerDeviceMatch t info addr st s).1.confirmed = st.confirmed ++ [cName info] ∧
        (considerDeviceMatch t info addr st s).1.possible = st.possible
      else
        (considerDeviceMatch t info addr st s).1.confirmed = st.confirmed ∧
        (considerDeviceMatch t info addr st s).1.possible = st.possible ++ [cName info]) ∧
    ((considerDeviceMatch t info addr st s).1.confirmed = st.confirmed ++ [cName info] ↔
      ∃ v, (t.readReg s addr info.chip_id_reg).1 = some v ∧
        v &&& info.id_mask = info.expected_chip_id &&& info.id_mask) ∧
    ((considerDeviceMatch t info addr st s).2.2 = [(addr, info.chip_id_reg)] ∧
      (considerDeviceMatch t info addr st s).2.1 = (t.readReg s addr info.chip_id_reg).2 ∧
      (considerDeviceMatch t info addr st s).1.hasMatch = true) ∧
    (∀ rest, classifyList t addr (info :: rest) st s =
      (fun r2 => ((r2.1 : MatchState), r2.2.1,
          (considerDeviceMatch t info addr st s).2.2 ++ r2.2.2))
        (classifyList t addr rest (considerDeviceMatch t info addr st s).1
          (considerDeviceMatch t info addr st s).2.1)) := by
  have hcons : ∀ rest, classifyList t addr (info :: rest) st s =
      (fun r2 => ((r2.1 : MatchState), r2.2.1,
          (considerDeviceMatch t info addr st s).2.2 ++ r2.2.2))
        (classifyList t addr rest (considerDeviceMatch t info addr st s).1
          (considerDeviceMatch t info addr st s).2.1) := by
    intro rest
    rfl
  rcases hE : t.readReg s addr info.chip_id_reg with ⟨r, s1⟩
  cases r with
  | none =>
    have hX : considerDeviceMatch t info addr st s =
        ({ st with possible := st.possible ++ [cName info], hasMatch := true }, s1,
          [(addr, info.chip_id_reg)]) := by
      unfold considerDeviceMatch
      rw [if_neg (not_not_intro h1), if_neg h2, hE]
    refine ⟨?_, ?_, ?_, ?_, ?_⟩
    · intro _
      rw [hX]
      exact ⟨rfl, rfl⟩
    · intro v hv
      exact absurd hv (by simp)
    · constructor
      · intro hc
        rw [hX] at hc
        dsimp only at hc
        have hlen := congrArg List.length hc
        simp at hlen
      · rintro ⟨v, hv, _⟩
        exact absurd hv (by simp)
    · rw [hX]
      exact ⟨rfl, rfl, rfl⟩
    · intro rest
      rw [hcons rest, hX]
  | some v0 =>
    by_cases hm : v0 &&& info.id_mask = info.expected_chip_id &&& info.id_mask
    · have hX : considerDeviceMatch t info addr st s =
          ({ st with confirmed := st.confirmed ++ [cName info], hasMatch := true }, s1,
            [(addr, info.chip_id_reg)]) := by
        unfold considerDeviceMatch
        rw [if_neg (not_not_intro h1), if_neg h2, hE]
        dsimp only
        rw [if_pos hm]
      refine ⟨?_, ?_, ?_, ?_, ?_⟩
      · intro hno
        exact absurd hno (by simp)
      · intro v hv
        have hv0 : v0 = v := by
          simpa using hv
        subst hv0
        rw [if_pos hm, hX]
        exact ⟨rfl, rfl⟩
      · constructor
        · intro _
          exact ⟨v0, rfl, hm⟩
        · intro _
          rw [hX]
      · rw [hX]
        exact ⟨rfl, rfl, rfl⟩
      · intro rest
        rw [hcons rest, hX]
    · have hX : considerDeviceMatch t info addr st s =
          ({ st with possible := st.possible ++ [cName info], hasMatch := true }, s1,
            [(addr, info.chip_id_reg)]) := by
        unfold considerDeviceMatch
        rw [if_neg (not_not_intro h1), if_neg h2, hE]
        dsimp only
        rw [if_neg hm]
      refine ⟨?_, ?_, ?_, ?_, ?_⟩
      · intro hno
        exact absurd hno (by simp)
      · intro v hv
        have hv0 : v0 = v := by
          simpa using hv
        subst hv0
        rw [if_neg hm, hX]
        exact ⟨rfl, rfl⟩
      · constructor
        · intro hc
          rw [hX] at hc
          dsimp only at hc
          have hlen := congrArg List.length hc
          simp at hlen
        · rintro ⟨v, hv, hvm⟩
          have hv0 : v0 = v := by
            simpa using hv
          subst hv0
          exact absurd hvm hm
      · rw [hX]
        exact ⟨rfl, rfl, rfl⟩
      · intro rest
        rw [hcons rest, hX]

/-- The MPU-6050 entry of the built-in table. -/
def mpu6050 : I2C_DeviceInfo :=
  ⟨0x68, padName "MPU-6050", 0x75, 0x68, 0xFF⟩

/-- Witness for C6: with a transport whose read fails, the MPU-6050
descriptor at its own address lands in possibleNames and confirmedNames
stays empty. -/
theorem c6_confirmed_iff_id_match_witness :
    (considerDeviceMatch failTransport mpu6050 0x68 initialMatchState 0).1.confirmed = [] ∧
    (considerDeviceMatch failTransport mpu6050 0x68 initialMatchState 0).1.possible =
      [cName mpu6050] := by
  have h := c6_confirmed_iff_id_match failTransport mpu6050 0x68 initialMatchState 0 rfl (by decide)
  have hA := h.1 rfl
  exact ⟨hA.1, hA.2⟩

/-- considerDeviceMatch issues exactly one read — at the queried address,
of the descriptor's id register — when the descriptor matches the address
and has a non-sentinel id register, and no read otherwise. -/
lemma considerDeviceMatch_reads {σ : Type} (t : Transport σ) (info : I2C_DeviceInfo)
    (addr : Nat) (st : MatchState) (s : σ) :
    (considerDeviceMatch t info addr st s).2.2 =
      if info.address = addr ∧ info.chip_id_reg ≠ 0xFF then [(addr, info.chip_id_reg)]
      else [] := by
  by_cases h1 : info.address = addr
  · by_cases h2 : info.chip_id_reg = 0xFF
    · rw [if_neg (by simp [h2])]
      unfold considerDeviceMatch
      rw [if_neg (not_not_intro h1), if_pos h2]
    · rw [if_pos ⟨h1, h2⟩]
      unfold considerDeviceMatch
      rw [if_neg (not_not_intro h1), if_neg h2]
      rcases hE : t.readReg s addr info.chip_id_reg with ⟨r, s1⟩
      cases r with
      | none => rfl
      | some v0 =>
        dsimp only
        split <;> rfl
  · rw [if_neg (by simp [h1])]
    unfold considerDeviceMatch
    rw [if_pos h1]

/-- The catalog walk's read trace is one read per descriptor that matches
the address with a non-sentinel id register, in catalog order. -/
lemma classifyList_reads {σ : Type} (t : Transport σ) (addr : Nat) :
    ∀ (cat : List I2C_DeviceInfo) (st : MatchState) (s : σ),
      (classifyList t addr cat st s).2.2 =
        (cat.filter (fun d => d.address == addr && d.chip_id_reg != 0xFF)).map
          (fun d => (addr, d.chip_id_reg)) := by
  intro cat
  induction cat with
  | nil => intro st s; rfl
  | cons d rest ih =>
    intro st s
    show ((considerDeviceMatch t d addr st s).2.2 ++
        (classifyList t addr rest (considerDeviceMatch t d addr st s).1
          (considerDeviceMatch t d addr st s).2.1).2.2) = _
    rw [considerDeviceMatch_reads, ih, List.filter_cons]
    by_cases h : d.address = addr ∧ d.chip_id_reg ≠ 0xFF
    · rw [if_pos h]
      have hb : (d.address == addr && d.chip_id_reg != 0xFF) = true := by
        simp [h.1, h.2]
      rw [hb]
      simp
    · rw [if_neg h]
      have hb : (d.address == addr && d.chip_id_reg != 0xFF) = false := by
        rcases not_and_or.mp h with h1 | h2
        · simp [h1]
        · simp at h2
          simp [h2]
      rw [hb]
      simp

/-- C10: for every transport, EEPROM image and queried address, the
classification pass of describeI2CAddress issues exactly one fresh
i2cReadRegister call per catalog descriptor (built-in entries first, then
occupied store slots) whose address matches and whose id_register is not
the 0xFF sentinel — each read at the queried address on that descriptor's
own id register, in catalog order, with no call for non-matching or
sentinel descriptors.  Because the transport is stateful, co-located
descriptors naming the same register get separate reads that may observe
different values: nothing is cached. -/
theorem c10_one_read_per_matching_descriptor {σ : Type} (t : Transport σ) (e : Nat → Nat)
    (addr : Nat) (s : σ) :
    (describeClassify t e addr s).2.2 =
      ((i2c_devices ++ occupiedSlots e).filter
        (fun d => d.address == addr && d.chip_id_reg != 0xFF)).map
        (fun d => (addr, d.chip_id_reg)) :=
  classifyList_reads t addr (i2c_devices ++ occupiedSlots e) initialMatchState s

end I2CDebug
